import Mathlib

/-!
Verification of the working-hours booking-window evaluator and related
booking UI logic of the shelf.nu repository.

The repository stores an organization working-hours configuration
(Prisma models WorkingHours, WorkingHoursOverride and BookingSettings in
app/database/schema.prisma) and validates a requested booking interval
against a weekly schedule, date overrides, a minimum advance-notice
buffer and an optional maximum booking length.  The evaluator itself is
specified in the natural-language spec; the schema and the booking date
form component (app/components/booking/forms/fields/dates.tsx) are the
source files embedded here.

Conventions of the embedding: absolute timestamps are whole minutes
since an epoch (UTC); a calendar date is its day index (whole days since
the epoch); a time of day such as "09:00" is its minute count since
midnight (540).  Exact fractional hours are rational numbers.
-/

namespace Shelf

/-- Modelled from the spec: an absolute UTC instant, in whole minutes since
the epoch.  The evaluator source (the working-hours booking validation
service) is not among the provided source files, so the evaluator and its
calendar helpers are modelled from spec sections 3 and 4. -/
abbrev Timestamp := Int

/-- A calendar date, as the count of whole days since the epoch. -/
abbrev DateIndex := Int

/-- The calendar date containing a timestamp (floor division by the number
of minutes in a day). -/
def dateOf (t : Timestamp) : DateIndex := Int.fdiv t 1440

/-- The time of day of a timestamp, in minutes since midnight (0..1439). -/
def todOf (t : Timestamp) : Int := Int.emod t 1440

/-- Day of week of a date, 0 = Sunday .. 6 = Saturday.  Day index 0
(1970-01-01) was a Thursday, hence the offset 4. -/
def dayOfWeek (d : DateIndex) : Nat := ((d + 4).emod 7).toNat

/-- Modelled from the spec (section 3, WeeklySchedule): one day of the weekly
schedule.  openTime and closeTime are minutes since midnight; they are
optional because the stored JSON only carries them for open days and may be
malformed. -/
structure DaySpec where
  isOpen : Bool
  openTime : Option Nat
  closeTime : Option Nat
deriving DecidableEq

/-- Modelled from the spec (section 3, DateOverride) and the Prisma model
WorkingHoursOverride: a date-specific exception to the weekly schedule. -/
structure DateOverride where
  date : DateIndex
  isOpen : Bool
  openTime : Option Nat
  closeTime : Option Nat
deriving DecidableEq

/-- Modelled from the spec (section 3, WorkingHoursConfig) and the Prisma
model WorkingHours: the weekly schedule maps day numbers 0..6 to specs, and
overrides is the list of date overrides. -/
structure WorkingHoursConfig where
  enabled : Bool
  weeklySchedule : Nat → DaySpec
  overrides : List DateOverride

/-- Modelled from the spec (section 3, BookingPolicy) and the Prisma model
BookingSettings: bufferStartTime in hours (0 means none), maxBookingLength
in hours (none means unlimited). -/
structure BookingPolicy where
  bufferStartTime : Nat
  maxBookingLength : Option Nat
  maxBookingLengthSkipClosedDays : Bool
deriving DecidableEq

/-- Modelled from the spec (section 3, BookingWindowRequest): the requested
interval and the evaluation instant.  A timestamp that failed to parse is
represented as none. -/
structure BookingWindowRequest where
  requestedStart : Option Timestamp
  requestedEnd : Option Timestamp
  evaluationInstant : Timestamp
deriving DecidableEq

/-- Modelled from the spec (section 3, ValidationVerdict): the tagged
violation variants. -/
inductive Violation where
  | OutsideWorkingHours (date : DateIndex) (openTime closeTime : Option Nat)
  | BufferViolation (requiredBufferHours : Nat) (actualLeadHours : ℚ)
  | MaxLengthExceeded (maxHours : Nat) (actualHours : ℚ)
  | InvalidRange (reason : String)
deriving DecidableEq

/-- Modelled from the spec (section 3, ValidationVerdict). -/
structure ValidationVerdict where
  valid : Bool
  violations : List Violation
deriving DecidableEq

/-- Modelled from the spec (section 4, failure semantics): the effective
open window of a day spec, or none when the day is closed or the spec is
malformed (isOpen true but a bound missing, or openTime not strictly before
closeTime); malformed degrades to closed. -/
def openCloseOf (s : DaySpec) : Option (Nat × Nat) :=
  if s.isOpen then
    match s.openTime, s.closeTime with
    | some o, some c => if o < c then some (o, c) else none
    | _, _ => none
  else none

/-- Modelled from the spec (section 4, resolution order): the effective day
spec for a date is the override for that exact date when one exists, taken
in full with no partial merge, and the weekly entry for the day of week
otherwise. -/
def effectiveSpec (config : WorkingHoursConfig) (d : DateIndex) : DaySpec :=
  match config.overrides.find? (fun o => o.date == d) with
  | some o => ⟨o.isOpen, o.openTime, o.closeTime⟩
  | none => config.weeklySchedule (dayOfWeek d)

/-- The inclusive list of dates from a to b (empty when b < a). -/
def dateRange (a b : DateIndex) : List DateIndex :=
  (List.range (b - a + 1).toNat).map (fun i => a + (i : Int))

/-- The OutsideWorkingHours violation reported for a date, carrying the
resolved bounds of that date. -/
def owhOf (config : WorkingHoursConfig) (d : DateIndex) : Violation :=
  .OutsideWorkingHours d (effectiveSpec config d).openTime (effectiveSpec config d).closeTime

/-- Modelled from the spec (section 4, step 2): whether a date touched by the
interval is offending.  A closed (or malformed) date always offends; an open
date offends when it is the start date and the booking starts before opening,
or the end date and the booking ends after closing.  Intermediate full days
are only required to be open. -/
def dateOffending (config : WorkingHoursConfig) (s e : Timestamp) (d : DateIndex) : Bool :=
  match openCloseOf (effectiveSpec config d) with
  | none => true
  | some oc =>
      decide ((d = dateOf s ∧ todOf s < (oc.1 : Int)) ∨ (d = dateOf e ∧ (oc.2 : Int) < todOf e))

/-- Modelled from the spec (section 4, step 2): the violation, if any,
contributed by one date touched by the interval. -/
def dateViolation (config : WorkingHoursConfig) (s e : Timestamp) (d : DateIndex) :
    Option Violation :=
  if dateOffending config s e d then some (owhOf config d) else none

/-- Modelled from the spec (section 4, step 2): one OutsideWorkingHours
violation per offending touched date, in date order, without stopping at
the first. -/
def workingHoursViolations (config : WorkingHoursConfig) (s e : Timestamp) : List Violation :=
  (dateRange (dateOf s) (dateOf e)).filterMap (dateViolation config s e)

/-- Modelled from the spec (section 4, step 1): exact fractional lead time in
hours from the evaluation instant to the requested start. -/
def leadHours (req : BookingWindowRequest) (s : Timestamp) : ℚ :=
  ((s - req.evaluationInstant : Int) : ℚ) / 60

/-- Modelled from the spec (section 4, step 1): the buffer check, performed
whenever bufferStartTime is positive, independently of config.enabled. -/
def bufferViolations (req : BookingWindowRequest) (policy : BookingPolicy) (s : Timestamp) :
    List Violation :=
  if 0 < policy.bufferStartTime then
    if leadHours req s < (policy.bufferStartTime : ℚ) then
      [.BufferViolation policy.bufferStartTime (leadHours req s)]
    else []
  else []

/-- Modelled from the spec (section 4, step 3): exact fractional duration in
hours of the requested interval. -/
def rawHours (s e : Timestamp) : ℚ := ((e - s : Int) : ℚ) / 60

/-- Modelled from the spec (section 4, step 3): the calendar dates strictly
between the start date and the end date whose resolved day spec is closed
(including malformed specs, which degrade to closed). -/
def closedDatesBetween (config : WorkingHoursConfig) (s e : Timestamp) : List DateIndex :=
  (dateRange (dateOf s + 1) (dateOf e - 1)).filter
    (fun d => (openCloseOf (effectiveSpec config d)).isNone)

/-- Modelled from the spec (section 4, step 3): the duration compared against
the maximum: raw hours, minus 24 hours per fully closed intermediate date
when maxBookingLengthSkipClosedDays is set. -/
def comparedHours (config : WorkingHoursConfig) (policy : BookingPolicy) (s e : Timestamp) : ℚ :=
  if policy.maxBookingLengthSkipClosedDays then
    rawHours s e - 24 * ((closedDatesBetween config s e).length : ℚ)
  else rawHours s e

/-- Modelled from the spec (section 4, step 3): the maximum-length check,
performed whenever maxBookingLength is present; a duration equal to the
limit is allowed, and the emitted violation carries the raw duration. -/
def maxLengthViolations (config : WorkingHoursConfig) (policy : BookingPolicy)
    (s e : Timestamp) : List Violation :=
  match policy.maxBookingLength with
  | none => []
  | some mx =>
      if (mx : ℚ) < comparedHours config policy s e then
        [.MaxLengthExceeded mx (rawHours s e)]
      else []

/-- Modelled from the spec (section 4): the working-hours booking-window
evaluator.  It is a pure function; a parse failure or a non-positive range
is fatal and yields a single InvalidRange violation, otherwise the buffer,
working-hours (only when enabled) and maximum-length checks run
independently and every violation is collected; valid holds exactly when no
violation was collected. -/
def evaluate (req : BookingWindowRequest) (config : WorkingHoursConfig)
    (policy : BookingPolicy) : ValidationVerdict :=
  match req.requestedStart, req.requestedEnd with
  | some s, some e =>
      if e ≤ s then ⟨false, [.InvalidRange "requestedEnd must be after requestedStart"]⟩
      else
        let vs := bufferViolations req policy s
          ++ (if config.enabled then workingHoursViolations config s e else [])
          ++ maxLengthViolations config policy s e
        ⟨vs.isEmpty, vs⟩
  | _, _ => ⟨false, [.InvalidRange "timestamp failed to parse"]⟩

/-- Recognizer for the OutsideWorkingHours variant. -/
def isOutsideViolation : Violation → Bool
  | .OutsideWorkingHours _ _ _ => true
  | _ => false

/-- Recognizer for the BufferViolation variant. -/
def isBufferViolation : Violation → Bool
  | .BufferViolation _ _ => true
  | _ => false

/-- Recognizer for the MaxLengthExceeded variant. -/
def isMaxLengthViolation : Violation → Bool
  | .MaxLengthExceeded _ _ => true
  | _ => false

/-- One day schedule as the UI receives it
(app/components/booking/forms/fields/dates.tsx): times are raw strings. -/
structure UIDaySchedule where
  isOpen : Bool
  openTime : Option String
  closeTime : Option String
deriving DecidableEq

/-- JavaScript truthiness of an optional string: undefined and the empty
string are falsy. -/
def uiJsTruthy : Option String → Bool
  | none => false
  | some s => !(s == "")

/-- The day names used by WorkingHoursInfo in dates.tsx. -/
def uiDayNames : List String :=
  ["Sunday", "Monday", "Tuesday", "Wednesday", "Thursday", "Friday", "Saturday"]

/-- The working-days computation of WorkingHoursInfo
(app/components/booking/forms/fields/dates.tsx, lines 201-213): a weekly
schedule entry contributes its day name exactly when isOpen is set and both
openTime and closeTime are truthy. -/
def workingDays (ws : List (Nat × UIDaySchedule)) : List String :=
  ws.filterMap (fun p =>
    if p.2.isOpen && uiJsTruthy p.2.openTime && uiJsTruthy p.2.closeTime then
      some (uiDayNames.getD p.1 "")
    else none)

/-- One row of the WorkingHoursOverride table (app/database/schema.prisma,
model WorkingHoursOverride). -/
structure OverrideRow where
  rowId : Nat
  workingHoursId : Nat
  date : DateIndex
  isOpen : Bool
  openTime : Option Nat
  closeTime : Option Nat
deriving DecidableEq

/-- Two rows collide on the unique key declared in schema.prisma by the
unique index on workingHoursId and date. -/
def keyConflict (a b : OverrideRow) : Bool :=
  decide (a.workingHoursId = b.workingHoursId ∧ a.date = b.date)

/-- The uniqueness invariant enforced by the unique index of the
WorkingHoursOverride table: no two rows share a workingHoursId and date. -/
def overridesUnique (db : List OverrideRow) : Prop :=
  db.Pairwise (fun a b => keyConflict a b = false)

/-- Modelled from the spec: the service operation that adds a date override
is not among the provided source files; per the schema, an insert whose
workingHoursId and date already occur is rejected by the unique index. -/
def createOverride (db : List OverrideRow) (row : OverrideRow) :
    Except String (List OverrideRow) :=
  if db.any (fun r => keyConflict r row) then
    .error "unique constraint violation on workingHoursId and date"
  else .ok (row :: db)

/-- Whether a table holds two distinct positions colliding on the unique key. -/
def hasDupKey : List OverrideRow → Bool
  | [] => false
  | r :: rest => rest.any (fun x => keyConflict r x) || hasDupKey rest

/-- Modelled from the spec: the service operation that edits a date override
is not among the provided source files; per the schema, an update is applied
to the row with the given id and rejected by the unique index when the
resulting table would collide on workingHoursId and date. -/
def updateOverride (db : List OverrideRow) (id : Nat) (newDate : DateIndex)
    (newIsOpen : Bool) (newOpen newClose : Option Nat) :
    Except String (List OverrideRow) :=
  let db2 := db.map (fun r =>
    if r.rowId == id then
      ⟨r.rowId, r.workingHoursId, newDate, newIsOpen, newOpen, newClose⟩
    else r)
  if hasDupKey db2 then
    .error "unique constraint violation on workingHoursId and date"
  else .ok db2

/-- One parsed datetime-local value: year, month, day, hour, minute.  The
source comment in dates.tsx pins the input format to YYYY-MM-DDTHH:mm. -/
structure LocalDateTime where
  year : Nat
  month : Nat
  day : Nat
  hour : Nat
  minute : Nat
deriving DecidableEq

/-- The Gregorian leap-year rule. -/
def isLeapYear (y : Nat) : Bool := (y % 4 == 0 && y % 100 != 0) || y % 400 == 0

/-- Days in a month of the Gregorian calendar. -/
def daysInMonth (y m : Nat) : Nat :=
  if m = 2 then (if isLeapYear y then 29 else 28)
  else if m = 4 ∨ m = 6 ∨ m = 9 ∨ m = 11 then 30
  else 31

/-- Whether a character is a decimal digit. -/
def isDigitChar (c : Char) : Bool := decide ('0' ≤ c) && decide (c ≤ '9')

/-- Numeric value of a decimal digit character. -/
def digitVal (c : Char) : Nat := c.toNat - 48

/-- Parsing of a datetime-local string YYYY-MM-DDTHH:mm, as performed by the
Date constructor on such input in the DatesFields change handler
(dates.tsx): out-of-range components make an invalid date. -/
def parseDateTimeLocal (s : String) : Option LocalDateTime :=
  match s.data with
  | [y1, y2, y3, y4, s1, m1, m2, s2, d1, d2, t1, h1, h2, c1, n1, n2] =>
      if s1 = '-' ∧ s2 = '-' ∧ t1 = 'T' ∧ c1 = ':' ∧
          isDigitChar y1 ∧ isDigitChar y2 ∧ isDigitChar y3 ∧ isDigitChar y4 ∧
          isDigitChar m1 ∧ isDigitChar m2 ∧ isDigitChar d1 ∧ isDigitChar d2 ∧
          isDigitChar h1 ∧ isDigitChar h2 ∧ isDigitChar n1 ∧ isDigitChar n2 then
        let y := ((digitVal y1 * 10 + digitVal y2) * 10 + digitVal y3) * 10 + digitVal y4
        let mo := digitVal m1 * 10 + digitVal m2
        let dy := digitVal d1 * 10 + digitVal d2
        let hh := digitVal h1 * 10 + digitVal h2
        let mi := digitVal n1 * 10 + digitVal n2
        if 1 ≤ mo ∧ mo ≤ 12 ∧ 1 ≤ dy ∧ dy ≤ daysInMonth y mo ∧ hh ≤ 23 ∧ mi ≤ 59 then
          some ⟨y, mo, dy, hh, mi⟩
        else none
      else none
  | _ => none

/-- A key that is monotone in chronological order for valid datetime values;
comparing keys models comparing Date objects in the handler. -/
def dtKey (a : LocalDateTime) : Nat :=
  (((a.year * 13 + a.month) * 32 + a.day) * 24 + a.hour) * 60 + a.minute

/-- Two-digit zero-padded decimal rendering. -/
def pad2 (n : Nat) : List Char := [Nat.digitChar (n / 10), Nat.digitChar (n % 10)]

/-- Four-digit zero-padded decimal rendering. -/
def pad4 (n : Nat) : List Char :=
  [Nat.digitChar (n / 1000), Nat.digitChar (n / 100 % 10),
    Nat.digitChar (n / 10 % 10), Nat.digitChar (n % 10)]

/-- Modelled from the spec: dateForDateTimeInputValue (app/utils/date-fns,
not among the provided source files) renders a Date as a datetime-local
input value with seconds, YYYY-MM-DDTHH:mm:ss; the handler only applies it
to values whose seconds were zeroed by setHours. -/
def dateForDateTimeInputValue (dt : LocalDateTime) : String :=
  ⟨pad4 dt.year ++ ['-'] ++ pad2 dt.month ++ ['-'] ++ pad2 dt.day ++ ['T']
    ++ pad2 dt.hour ++ [':'] ++ pad2 dt.minute ++ [':'] ++ pad2 0⟩

/-- JavaScript String.substring from index a up to b, on ASCII content. -/
def jsSubstring (s : String) (a b : Nat) : String := ⟨(s.data.take b).drop a⟩

/-- The start-date onChange handler of DatesFields
(app/components/booking/forms/fields/dates.tsx, lines 64-103), restricted to
its effect on the end-date state: for a new booking with a truthy current
end value and a truthy input, when both parse and the new start is strictly
after the current end, the end date becomes 18:00 on the start day,
formatted for a datetime-local input with the seconds stripped by
substring; otherwise the end-date state is returned unchanged. -/
def handleStartDateChange (isNewBooking : Bool) (endDate : Option String)
    (inputValue : String) : Option String :=
  if isNewBooking = true ∧ uiJsTruthy endDate = true ∧ inputValue ≠ "" then
    match parseDateTimeLocal inputValue, parseDateTimeLocal (endDate.getD "") with
    | some ns, some ce =>
        if dtKey ce < dtKey ns then
          let endDateTime : LocalDateTime := ⟨ns.year, ns.month, ns.day, 18, 0⟩
          let newEndDate := dateForDateTimeInputValue endDateTime
          some (jsSubstring newEndDate 0 (newEndDate.length - 3))
        else endDate
    | _, _ => endDate
  else endDate

/-- Whether the handler resets the end date: new booking, truthy current end
value, both values parse, and the new start is strictly after the current
end. -/
def resetTriggered (isNewBooking : Bool) (endDate : Option String)
    (inputValue : String) : Bool :=
  isNewBooking && uiJsTruthy endDate &&
    match parseDateTimeLocal inputValue, parseDateTimeLocal (endDate.getD "") with
    | some ns, some ce => decide (dtKey ce < dtKey ns)
    | _, _ => false

/-- The value the handler assigns on reset: 18:00 on the calendar day of the
parsed input, in datetime-local format without seconds. -/
def resetEndDateValue (inputValue : String) : String :=
  match parseDateTimeLocal inputValue with
  | some ns =>
      ⟨pad4 ns.year ++ ['-'] ++ pad2 ns.month ++ ['-'] ++ pad2 ns.day
        ++ ['T', '1', '8', ':', '0', '0']⟩
  | none => ""

theorem evaluate_violations_eq (req : BookingWindowRequest) (config : WorkingHoursConfig)
    (policy : BookingPolicy) (s e : Timestamp)
    (hs : req.requestedStart = some s) (he : req.requestedEnd = some e) (hlt : s < e) :
    (evaluate req config policy).violations
      = bufferViolations req policy s
        ++ (if config.enabled then workingHoursViolations config s e else [])
        ++ maxLengthViolations config policy s e := by
  simp [evaluate, hs, he, not_le.mpr hlt]

theorem evaluate_valid_isEmpty (req : BookingWindowRequest) (config : WorkingHoursConfig)
    (policy : BookingPolicy) :
    (evaluate req config policy).valid = (evaluate req config policy).violations.isEmpty := by
  rcases hq : req.requestedStart with _ | s <;> rcases hr : req.requestedEnd with _ | e <;>
    simp [evaluate, hq, hr]
  by_cases h : e ≤ s <;> simp [h]

theorem mem_workingHoursViolations (config : WorkingHoursConfig) (s e : Timestamp)
    (v : Violation) (h : v ∈ workingHoursViolations config s e) :
    ∃ d, v = owhOf config d := by
  unfold workingHoursViolations at h
  rcases List.mem_filterMap.mp h with ⟨d, _, hd⟩
  unfold dateViolation at hd
  split at hd
  · exact ⟨d, (Option.some.injEq _ _ ▸ hd).symm⟩
  · exact absurd hd (by simp)

theorem filterMap_ite_eq_map_filter {α β : Type} (f : α → β) (p : α → Bool) :
    ∀ l : List α,
      l.filterMap (fun a => if p a then some (f a) else none) = (l.filter p).map f
  | [] => rfl
  | a :: l => by
      by_cases h : p a <;> simp [filterMap_ite_eq_map_filter f p l, h]

theorem workingHoursViolations_eq_map_filter (config : WorkingHoursConfig) (s e : Timestamp) :
    workingHoursViolations config s e
      = ((dateRange (dateOf s) (dateOf e)).filter (dateOffending config s e)).map
          (owhOf config) :=
  filterMap_ite_eq_map_filter (owhOf config) (dateOffending config s e) _

/-- C1: for a request whose timestamps are well-formed with requestedStart
strictly before requestedEnd, evaluate runs the buffer, working-hours and
maximum-length checks independently, collecting every violation of all
three, and the verdict is valid exactly when the collected sequence is
empty. -/
theorem evaluate_runs_all_checks_and_valid_iff
    (req : BookingWindowRequest) (config : WorkingHoursConfig) (policy : BookingPolicy)
    (s e : Timestamp)
    (hs : req.requestedStart = some s) (he : req.requestedEnd = some e) (hlt : s < e) :
    (evaluate req config policy).violations
      = bufferViolations req policy s
        ++ (if config.enabled then workingHoursViolations config s e else [])
        ++ maxLengthViolations config policy s e
    ∧ ((evaluate req config policy).valid = true ↔
        (evaluate req config policy).violations = []) := by
  refine ⟨evaluate_violations_eq req config policy s e hs he hlt, ?_⟩
  rw [evaluate_valid_isEmpty req config policy]
  exact List.isEmpty_iff

/-- C1 witness: a concrete well-formed request on which the collected
sequence is characterized and emptiness decides validity. -/
theorem evaluate_runs_all_checks_and_valid_iff_witness :
    (⟨some 100, some 200, 0⟩ : BookingWindowRequest).requestedStart = some 100
    ∧ (100 : Int) < 200
    ∧ ((evaluate ⟨some 100, some 200, 0⟩
          ⟨true, fun _ => ⟨true, some 540, some 1020⟩, []⟩ ⟨0, none, false⟩).violations
        = bufferViolations ⟨some 100, some 200, 0⟩ ⟨0, none, false⟩ 100
          ++ (if (⟨true, fun _ => ⟨true, some 540, some 1020⟩, []⟩ :
                WorkingHoursConfig).enabled
              then workingHoursViolations ⟨true, fun _ => ⟨true, some 540, some 1020⟩, []⟩
                100 200
              else [])
          ++ maxLengthViolations ⟨true, fun _ => ⟨true, some 540, some 1020⟩, []⟩
              ⟨0, none, false⟩ 100 200
        ∧ ((evaluate ⟨some 100, some 200, 0⟩
              ⟨true, fun _ => ⟨true, some 540, some 1020⟩, []⟩ ⟨0, none, false⟩).valid = true ↔
            (evaluate ⟨some 100, some 200, 0⟩
              ⟨true, fun _ => ⟨true, some 540, some 1020⟩, []⟩ ⟨0, none, false⟩).violations
              = [])) :=
  ⟨rfl, by decide,
    evaluate_runs_all_checks_and_valid_iff _ _ _ 100 200 rfl rfl (by decide)⟩

/-- C2: when a requested timestamp fails to parse or requestedEnd is not
after requestedStart, the verdict is invalid with exactly one InvalidRange
violation and no other check contributes. -/
theorem evaluate_invalid_range_exclusive
    (req : BookingWindowRequest) (config : WorkingHoursConfig) (policy : BookingPolicy)
    (h : req.requestedStart = none ∨ req.requestedEnd = none ∨
      ∃ s e, req.requestedStart = some s ∧ req.requestedEnd = some e ∧ e ≤ s) :
    (evaluate req config policy).valid = false ∧
      ∃ reason, (evaluate req config policy).violations = [Violation.InvalidRange reason] := by
  rcases h with h | h | ⟨s, e, hs, he, hle⟩
  · rcases hr : req.requestedEnd with _ | e <;> simp [evaluate, h, hr]
  · rcases hq : req.requestedStart with _ | s <;> simp [evaluate, h, hq]
  · simp [evaluate, hs, he, hle]

/-- C2 witness: a concrete request with requestedEnd before requestedStart. -/
theorem evaluate_invalid_range_exclusive_witness :
    ((⟨some 500, some 200, 0⟩ : BookingWindowRequest).requestedStart = none ∨
      (⟨some 500, some 200, 0⟩ : BookingWindowRequest).requestedEnd = none ∨
      ∃ s e, (⟨some 500, some 200, 0⟩ : BookingWindowRequest).requestedStart = some s ∧
        (⟨some 500, some 200, 0⟩ : BookingWindowRequest).requestedEnd = some e ∧ e ≤ s)
    ∧ ((evaluate ⟨some 500, some 200, 0⟩
          ⟨true, fun _ => ⟨true, some 540, some 1020⟩, []⟩ ⟨0, none, false⟩).valid = false ∧
        ∃ reason, (evaluate ⟨some 500, some 200, 0⟩
          ⟨true, fun _ => ⟨true, some 540, some 1020⟩, []⟩ ⟨0, none, false⟩).violations
          = [Violation.InvalidRange reason]) :=
  ⟨Or.inr (Or.inr ⟨500, 200, rfl, rfl, by decide⟩),
    evaluate_invalid_range_exclusive _ _ _
      (Or.inr (Or.inr ⟨500, 200, rfl, rfl, by decide⟩))⟩

/-- C8: with working hours disabled, a zero buffer and no maximum length,
every well-formed request is valid with no violations. -/
theorem evaluate_all_policies_off_valid
    (req : BookingWindowRequest) (config : WorkingHoursConfig) (policy : BookingPolicy)
    (s e : Timestamp)
    (hs : req.requestedStart = some s) (he : req.requestedEnd = some e) (hlt : s < e)
    (hen : config.enabled = false) (hb : policy.bufferStartTime = 0)
    (hm : policy.maxBookingLength = none) :
    evaluate req config policy = ⟨true, []⟩ := by
  have hv := evaluate_violations_eq req config policy s e hs he hlt
  have hval := evaluate_valid_isEmpty req config policy
  simp [bufferViolations, hb, maxLengthViolations, hm, hen] at hv
  rcases hE : evaluate req config policy with ⟨va, vs⟩
  rw [hE] at hv hval
  simp at hv hval
  rw [hv] at hval ⊢
  simp at hval
  rw [hval]

theorem filter_bufferViolations (req : BookingWindowRequest) (policy : BookingPolicy)
    (s : Timestamp) :
    (bufferViolations req policy s).filter isOutsideViolation = []
    ∧ (bufferViolations req policy s).filter isBufferViolation = bufferViolations req policy s
    ∧ (bufferViolations req policy s).filter isMaxLengthViolation = [] := by
  unfold bufferViolations
  split
  · split <;> simp [isOutsideViolation, isBufferViolation, isMaxLengthViolation]
  · simp

theorem filter_maxLengthViolations (config : WorkingHoursConfig) (policy : BookingPolicy)
    (s e : Timestamp) :
    (maxLengthViolations config policy s e).filter isOutsideViolation = []
    ∧ (maxLengthViolations config policy s e).filter isBufferViolation = []
    ∧ (maxLengthViolations config policy s e).filter isMaxLengthViolation
        = maxLengthViolations config policy s e := by
  unfold maxLengthViolations
  split
  · simp
  · split <;> simp [isOutsideViolation, isBufferViolation, isMaxLengthViolation]

theorem filter_workingHoursViolations (config : WorkingHoursConfig) (s e : Timestamp) :
    (workingHoursViolations config s e).filter isOutsideViolation
        = workingHoursViolations config s e
    ∧ (workingHoursViolations config s e).filter isBufferViolation = []
    ∧ (workingHoursViolations config s e).filter isMaxLengthViolation = [] := by
  refine ⟨List.filter_eq_self.mpr ?_, List.filter_eq_nil_iff.mpr ?_, List.filter_eq_nil_iff.mpr ?_⟩ <;>
    intro v hv <;> obtain ⟨d, rfl⟩ := mem_workingHoursViolations _ _ _ _ hv <;>
    simp [owhOf, isOutsideViolation, isBufferViolation, isMaxLengthViolation]

theorem dateRange_self (d : DateIndex) : dateRange d d = [d] := by
  have h : (d - d + 1).toNat = 1 := by omega
  rw [dateRange, h]
  rw [show List.range 1 = [0] from rfl]
  simp

/-- C3: an override for a date fully replaces the weekly entry for that
date, including its isOpen flag, with no field-wise merge; in particular a
request on a date whose override is closed is rejected with an
OutsideWorkingHours violation regardless of the weekly schedule. -/
theorem override_full_precedence
    (config : WorkingHoursConfig) (d : DateIndex) (o : DateOverride)
    (hfind : config.overrides.find? (fun ov => ov.date == d) = some o) :
    effectiveSpec config d = ⟨o.isOpen, o.openTime, o.closeTime⟩
    ∧ (∀ (req : BookingWindowRequest) (policy : BookingPolicy) (s e : Timestamp),
        req.requestedStart = some s → req.requestedEnd = some e → s < e →
        dateOf s = d → dateOf e = d → o.isOpen = false → config.enabled = true →
        (evaluate req config policy).valid = false ∧
          Violation.OutsideWorkingHours d o.openTime o.closeTime
            ∈ (evaluate req config policy).violations) := by
  have heff : effectiveSpec config d = ⟨o.isOpen, o.openTime, o.closeTime⟩ := by
    simp [effectiveSpec, hfind]
  refine ⟨heff, ?_⟩
  intro req policy s e hs he hlt hds hde hclosed hen
  have hocc : openCloseOf (effectiveSpec config d) = none := by
    rw [heff]; simp [openCloseOf, hclosed]
  have hoff : dateOffending config s e d = true := by
    simp [dateOffending, hocc]
  have howh : owhOf config d = Violation.OutsideWorkingHours d o.openTime o.closeTime := by
    rw [owhOf, heff]
  have hwh : workingHoursViolations config s e
      = [Violation.OutsideWorkingHours d o.openTime o.closeTime] := by
    rw [workingHoursViolations_eq_map_filter, hds, hde, dateRange_self]
    simp [hoff, howh]
  have hv := evaluate_violations_eq req config policy s e hs he hlt
  rw [if_pos hen, hwh] at hv
  have hmem : Violation.OutsideWorkingHours d o.openTime o.closeTime
      ∈ (evaluate req config policy).violations := by
    rw [hv]; simp
  refine ⟨?_, hmem⟩
  rw [evaluate_valid_isEmpty req config policy]
  exact List.isEmpty_eq_false.mpr (List.ne_nil_of_mem hmem)

/-- C3 witness: weekly entry open 09:00 to 17:00, override closed on day 4,
a request inside the weekly window on day 4 is invalid with an
OutsideWorkingHours violation. -/
theorem override_full_precedence_witness :
    ((⟨true, fun _ => ⟨true, some 540, some 1020⟩,
        [⟨4, false, none, none⟩]⟩ : WorkingHoursConfig).overrides.find?
      (fun ov => ov.date == 4) = some ⟨4, false, none, none⟩)
    ∧ ((evaluate ⟨some 6360, some 6460, 0⟩
          ⟨true, fun _ => ⟨true, some 540, some 1020⟩, [⟨4, false, none, none⟩]⟩
          ⟨0, none, false⟩).valid = false ∧
        Violation.OutsideWorkingHours 4 none none
          ∈ (evaluate ⟨some 6360, some 6460, 0⟩
              ⟨true, fun _ => ⟨true, some 540, some 1020⟩, [⟨4, false, none, none⟩]⟩
              ⟨0, none, false⟩).violations) :=
  ⟨rfl,
    (override_full_precedence
        ⟨true, fun _ => ⟨true, some 540, some 1020⟩, [⟨4, false, none, none⟩]⟩
        4 ⟨4, false, none, none⟩ rfl).2
      ⟨some 6360, some 6460, 0⟩ ⟨0, none, false⟩ 6360 6460 rfl rfl (by decide)
      (by decide) (by decide) rfl rfl⟩

/-- C4: with working hours enabled, each date touched by a well-formed
request is checked separately, yielding exactly one OutsideWorkingHours
violation per offending date; an open date offends only as the start date
when the booking starts before its open time or as the end date when the
booking ends after its close time, so intermediate full days are only
required to be open, and a closed or malformed date always offends. -/
theorem per_date_working_hours_check
    (req : BookingWindowRequest) (config : WorkingHoursConfig) (policy : BookingPolicy)
    (s e : Timestamp)
    (hs : req.requestedStart = some s) (he : req.requestedEnd = some e) (hlt : s < e)
    (hen : config.enabled = true) :
    (evaluate req config policy).violations.filter isOutsideViolation
      = ((dateRange (dateOf s) (dateOf e)).filter (dateOffending config s e)).map
          (owhOf config)
    ∧ (∀ d o c, openCloseOf (effectiveSpec config d) = some (o, c) →
        (dateOffending config s e d = true ↔
          (d = dateOf s ∧ todOf s < (o : Int)) ∨ (d = dateOf e ∧ (c : Int) < todOf e)))
    ∧ (∀ d, openCloseOf (effectiveSpec config d) = none →
        dateOffending config s e d = true) := by
  refine ⟨?_, ?_, ?_⟩
  · rw [evaluate_violations_eq req config policy s e hs he hlt, if_pos hen,
      List.filter_append, List.filter_append,
      (filter_bufferViolations req policy s).1,
      (filter_maxLengthViolations config policy s e).1,
      (filter_workingHoursViolations config s e).1,
      workingHoursViolations_eq_map_filter]
    simp
  · intro d o c h
    simp [dateOffending, h]
  · intro d h
    simp [dateOffending, h]

/-- C4 witness: weekly window 09:00 to 17:00; a booking from day 4 at 08:00
to day 5 at 16:00 is rejected with exactly one violation naming day 4. -/
theorem per_date_working_hours_check_witness :
    (6240 : Int) < 8160
    ∧ (evaluate ⟨some 6240, some 8160, 0⟩
        ⟨true, fun _ => ⟨true, some 540, some 1020⟩, []⟩
        ⟨0, none, false⟩).violations.filter isOutsideViolation
      = [Violation.OutsideWorkingHours 4 (some 540) (some 1020)] :=
  ⟨by decide,
    (per_date_working_hours_check ⟨some 6240, some 8160, 0⟩
        ⟨true, fun _ => ⟨true, some 540, some 1020⟩, []⟩ ⟨0, none, false⟩
        6240 8160 rfl rfl (by decide) rfl).1.trans (by decide)⟩

/-- C5: with a positive bufferStartTime, a well-formed request receives a
BufferViolation exactly when the exact fractional lead time in hours from
the evaluation instant to the start is strictly below the buffer, so a
start at exactly the buffer bound is accepted; this holds for every config,
in particular when config.enabled is false. -/
theorem buffer_check_exact_inclusive_boundary
    (req : BookingWindowRequest) (config : WorkingHoursConfig) (policy : BookingPolicy)
    (s e : Timestamp)
    (hs : req.requestedStart = some s) (he : req.requestedEnd = some e) (hlt : s < e)
    (hb : 0 < policy.bufferStartTime) :
    (evaluate req config policy).violations.filter isBufferViolation
      = if leadHours req s < (policy.bufferStartTime : ℚ)
        then [Violation.BufferViolation policy.bufferStartTime (leadHours req s)]
        else [] := by
  rw [evaluate_violations_eq req config policy s e hs he hlt,
    List.filter_append, List.filter_append,
    (filter_bufferViolations req policy s).2.1,
    (filter_maxLengthViolations config policy s e).2.1]
  have hwh : (if config.enabled then workingHoursViolations config s e
      else []).filter isBufferViolation = [] := by
    by_cases hen : config.enabled <;>
      simp [hen, (filter_workingHoursViolations config s e).2.1]
  rw [hwh, List.append_nil, List.append_nil]
  rw [bufferViolations, if_pos hb]

/-- C5 witness: buffer of 4 hours, working hours disabled, and a start at
exactly the evaluation instant plus 4 hours: no BufferViolation. -/
theorem buffer_check_exact_inclusive_boundary_witness :
    0 < (⟨4, none, false⟩ : BookingPolicy).bufferStartTime
    ∧ (evaluate ⟨some 240, some 400, 0⟩
        ⟨false, fun _ => ⟨false, none, none⟩, []⟩
        ⟨4, none, false⟩).violations.filter isBufferViolation = [] :=
  ⟨by decide,
    (buffer_check_exact_inclusive_boundary ⟨some 240, some 400, 0⟩
        ⟨false, fun _ => ⟨false, none, none⟩, []⟩ ⟨4, none, false⟩
        240 400 rfl rfl (by decide) (by decide)).trans
      (by norm_num [leadHours])⟩

/-- C6: with a maximum booking length configured, a well-formed request
receives a MaxLengthExceeded violation exactly when the compared duration
strictly exceeds the limit, a duration equal to the limit being allowed;
the compared duration is the raw fractional hours of the interval, reduced
by 24 hours per fully closed calendar date strictly between the start and
end dates exactly when maxBookingLengthSkipClosedDays is set. -/
theorem max_length_strict_with_skip_closed_days
    (req : BookingWindowRequest) (config : WorkingHoursConfig) (policy : BookingPolicy)
    (s e : Timestamp) (mx : Nat)
    (hs : req.requestedStart = some s) (he : req.requestedEnd = some e) (hlt : s < e)
    (hmx : policy.maxBookingLength = some mx) :
    ((evaluate req config policy).violations.filter isMaxLengthViolation
      = if (mx : ℚ) < comparedHours config policy s e
        then [Violation.MaxLengthExceeded mx (rawHours s e)]
        else [])
    ∧ (policy.maxBookingLengthSkipClosedDays = false →
        comparedHours config policy s e = rawHours s e)
    ∧ (policy.maxBookingLengthSkipClosedDays = true →
        comparedHours config policy s e
          = rawHours s e - 24 * ((closedDatesBetween config s e).length : ℚ)) := by
  refine ⟨?_, fun h => by simp [comparedHours, h], fun h => by simp [comparedHours, h]⟩
  rw [evaluate_violations_eq req config policy s e hs he hlt,
    List.filter_append, List.filter_append,
    (filter_bufferViolations req policy s).2.2,
    (filter_maxLengthViolations config policy s e).2.2]
  have hwh : (if config.enabled then workingHoursViolations config s e
      else []).filter isMaxLengthViolation = [] := by
    by_cases hen : config.enabled <;>
      simp [hen, (filter_workingHoursViolations config s e).2.2]
  rw [hwh, List.append_nil, List.nil_append]
  rw [maxLengthViolations, hmx]

/-- C6 witness: the skip-closed-days scenario of the spec: a 48 hour booking
whose single intermediate date is closed, with a 24 hour limit and
maxBookingLengthSkipClosedDays set, yields no MaxLengthExceeded. -/
theorem max_length_strict_with_skip_closed_days_witness :
    (⟨0, some 24, true⟩ : BookingPolicy).maxBookingLength = some 24
    ∧ (evaluate ⟨some 6480, some 9360, 0⟩
        ⟨false, fun n => if n = 2 then ⟨false, none, none⟩ else ⟨true, some 0, some 1439⟩, []⟩
        ⟨0, some 24, true⟩).violations.filter isMaxLengthViolation = [] :=
  ⟨rfl,
    (max_length_strict_with_skip_closed_days ⟨some 6480, some 9360, 0⟩
        ⟨false, fun n => if n = 2 then ⟨false, none, none⟩ else ⟨true, some 0, some 1439⟩, []⟩
        ⟨0, some 24, true⟩ 6480 9360 24 rfl rfl (by decide) rfl).1.trans
      (by
        have hc : closedDatesBetween
            ⟨false, fun n => if n = 2 then ⟨false, none, none⟩
              else ⟨true, some 0, some 1439⟩, []⟩ 6480 9360 = [5] := by decide
        norm_num [comparedHours, hc, rawHours])⟩

/-- C8 witness: a concrete request far outside the weekly window is still
valid once all three policy axes are off. -/
theorem evaluate_all_policies_off_valid_witness :
    ((⟨false, fun _ => ⟨false, none, none⟩, []⟩ : WorkingHoursConfig).enabled = false)
    ∧ evaluate ⟨some 100, some 20000, 50000⟩
        ⟨false, fun _ => ⟨false, none, none⟩, []⟩ ⟨0, none, true⟩ = ⟨true, []⟩ :=
  ⟨rfl, evaluate_all_policies_off_valid _ _ _ 100 20000 rfl rfl (by decide) rfl rfl rfl⟩

theorem keyConflict_comm (a b : OverrideRow) : keyConflict a b = keyConflict b a := by
  simp only [keyConflict, decide_eq_decide]
  constructor <;> rintro ⟨h1, h2⟩ <;> exact ⟨h1.symm, h2.symm⟩

theorem hasDupKey_false_unique :
    ∀ db : List OverrideRow, hasDupKey db = false → overridesUnique db
  | [], _ => List.Pairwise.nil
  | r :: rest, h => by
      rw [hasDupKey, Bool.or_eq_false_iff] at h
      refine List.Pairwise.cons ?_ (hasDupKey_false_unique rest h.2)
      intro b hb
      have := List.any_eq_false.mp h.1 b hb
      simpa using this

theorem overridesUnique_at_most_one :
    ∀ db : List OverrideRow, overridesUnique db →
      ∀ a ∈ db, ∀ b ∈ db, a.workingHoursId = b.workingHoursId → a.date = b.date → a = b
  | [], _, a, ha => by simp at ha
  | r :: rest, h, a, ha => by
      intro b hb hw hd
      rcases List.pairwise_cons.mp h with ⟨hr, hrest⟩
      rcases List.mem_cons.mp ha with ha1 | ha1
      · rcases List.mem_cons.mp hb with hb1 | hb1
        · rw [ha1, hb1]
        · subst ha1
          have hc := hr b hb1
          simp [keyConflict, hw, hd] at hc
      · rcases List.mem_cons.mp hb with hb1 | hb1
        · subst hb1
          have hc := hr a ha1
          simp [keyConflict, hw.symm, hd.symm] at hc
        · exact overridesUnique_at_most_one rest hrest a ha1 b hb1 hw hd

/-- C9: at most one override per date per working-hours record: the empty
table satisfies the uniqueness invariant of the unique index on
workingHoursId and date, a table satisfying it never holds two rows sharing
that key, and the invariant is preserved by the create and update
operations, which fail on the unique index rather than produce a
duplicate. -/
theorem override_unique_per_date :
    overridesUnique []
    ∧ (∀ db : List OverrideRow, overridesUnique db →
        ∀ a ∈ db, ∀ b ∈ db, a.workingHoursId = b.workingHoursId → a.date = b.date → a = b)
    ∧ (∀ (db : List OverrideRow) (row : OverrideRow) (db2 : List OverrideRow),
        overridesUnique db → createOverride db row = Except.ok db2 → overridesUnique db2)
    ∧ (∀ (db : List OverrideRow) (id : Nat) (nd : DateIndex) (no : Bool)
        (nop ncl : Option Nat) (db2 : List OverrideRow),
        updateOverride db id nd no nop ncl = Except.ok db2 → overridesUnique db2) := by
  refine ⟨List.Pairwise.nil, overridesUnique_at_most_one, ?_, ?_⟩
  · intro db row db2 hu h
    rw [createOverride] at h
    split at h
    · exact absurd h (by simp)
    · rename_i hany
      rw [Bool.not_eq_true] at hany
      injection h with h2
      subst h2
      refine List.Pairwise.cons ?_ hu
      intro b hb
      have hc := List.any_eq_false.mp hany b hb
      rw [keyConflict_comm]
      simpa using hc
  · intro db id nd no nop ncl db2 h
    rw [updateOverride] at h
    split at h
    · exact absurd h (by simp)
    · rename_i hdup
      rw [Bool.not_eq_true] at hdup
      injection h with h2
      subst h2
      exact hasDupKey_false_unique _ hdup

/-- C9 witness: creating an override in an empty table succeeds and the
resulting table satisfies the uniqueness invariant. -/
theorem override_unique_per_date_witness :
    createOverride [] ⟨0, 1, 5, true, none, none⟩
        = Except.ok [⟨0, 1, 5, true, none, none⟩]
    ∧ overridesUnique [⟨0, 1, 5, true, none, none⟩] :=
  ⟨rfl, override_unique_per_date.2.2.1 [] ⟨0, 1, 5, true, none, none⟩
    [⟨0, 1, 5, true, none, none⟩] List.Pairwise.nil rfl⟩

/-- C7: a malformed day spec, with isOpen set but a missing bound or with
openTime not strictly before closeTime, resolves to no open window, and a
date resolving to no open window contributes an OutsideWorkingHours
violation exactly as a closed date does; the evaluator is a total function
whose verdict always carries the valid flag mirroring emptiness of the
violations; and the UI working-hours summary counts a day as a working day
exactly when isOpen is set and both openTime and closeTime are truthy. -/
theorem malformed_config_degrades_to_closed :
    (∀ spec : DaySpec, spec.isOpen = true →
      (spec.openTime = none ∨ spec.closeTime = none ∨
        ∃ o c, spec.openTime = some o ∧ spec.closeTime = some c ∧ c ≤ o) →
      openCloseOf spec = none)
    ∧ (∀ (config : WorkingHoursConfig) (s e : Timestamp) (d : DateIndex),
        openCloseOf (effectiveSpec config d) = none →
        dateViolation config s e d = some (owhOf config d))
    ∧ (∀ (req : BookingWindowRequest) (config : WorkingHoursConfig) (policy : BookingPolicy),
        (evaluate req config policy).valid = (evaluate req config policy).violations.isEmpty)
    ∧ (∀ ws : List (Nat × UIDaySchedule),
        workingDays ws
          = (ws.filter (fun p => p.2.isOpen && uiJsTruthy p.2.openTime
              && uiJsTruthy p.2.closeTime)).map (fun p => uiDayNames.getD p.1 "")) := by
  refine ⟨?_, ?_, evaluate_valid_isEmpty, ?_⟩
  · intro spec hopen hmal
    rcases hmal with h | h | ⟨o, c, ho, hc, hle⟩
    · simp [openCloseOf, hopen, h]
    · simp [openCloseOf, hopen, h]
    · rw [openCloseOf, if_pos hopen, ho, hc]
      simp [Nat.not_lt.mpr hle]
  · intro config s e d h
    simp [dateViolation, dateOffending, h]
  · intro ws
    exact filterMap_ite_eq_map_filter _ _ ws

/-- C7 witness: a spec with isOpen set and openTime after closeTime has no
open window, so its date is effectively closed. -/
theorem malformed_config_degrades_to_closed_witness :
    ((⟨true, some 600, some 500⟩ : DaySpec).isOpen = true)
    ∧ openCloseOf ⟨true, some 600, some 500⟩ = none :=
  ⟨rfl, malformed_config_degrades_to_closed.1 ⟨true, some 600, some 500⟩ rfl
    (Or.inr (Or.inr ⟨600, 500, rfl, rfl, by decide⟩))⟩

theorem reset_format (ns : LocalDateTime) :
    jsSubstring (dateForDateTimeInputValue ⟨ns.year, ns.month, ns.day, 18, 0⟩) 0
        ((dateForDateTimeInputValue ⟨ns.year, ns.month, ns.day, 18, 0⟩).length - 3)
      = ⟨pad4 ns.year ++ ['-'] ++ pad2 ns.month ++ ['-'] ++ pad2 ns.day
          ++ ['T', '1', '8', ':', '0', '0']⟩ := by
  simp [jsSubstring, dateForDateTimeInputValue, pad4, pad2,
    show Nat.digitChar 1 = '1' from rfl, show Nat.digitChar 8 = '8' from rfl,
    show Nat.digitChar 0 = '0' from rfl]

/-- C10: the start-date change handler of DatesFields resets the end-date
state exactly when the booking is new, the current end value is truthy,
both the input and the current end parse as valid dates, and the new start
is strictly after the current end; the new end value is then 18:00 on the
calendar day of the new start, formatted for a datetime-local input with
the seconds stripped; in every other case, including parse failures, the
end-date state is returned unchanged. -/
theorem start_date_change_resets_end_to_eighteen
    (b : Bool) (ed : Option String) (iv : String) :
    handleStartDateChange b ed iv
      = if resetTriggered b ed iv then some (resetEndDateValue iv) else ed := by
  rcases hp : parseDateTimeLocal iv with _ | ns <;>
    rcases hq : parseDateTimeLocal (ed.getD "") with _ | ce <;>
      rw [handleStartDateChange, resetTriggered] <;>
        by_cases hcond : (b = true ∧ uiJsTruthy ed = true ∧ iv ≠ "")
  · rw [if_pos hcond, hp, hq]
    simp [hcond.1, hcond.2.1, hp, hq]
  · rw [if_neg hcond]
    simp only [hp, hq, Bool.and_false]
    simp
  · rw [if_pos hcond, hp, hq]
    simp [hcond.1, hcond.2.1, hp, hq]
  · rw [if_neg hcond]
    simp only [hp, hq, Bool.and_false]
    simp
  · rw [if_pos hcond, hp, hq]
    simp [hcond.1, hcond.2.1, hp, hq]
  · rw [if_neg hcond]
    simp only [hp, hq, Bool.and_false]
    simp
  · rw [if_pos hcond, hp, hq, resetEndDateValue, hp]
    by_cases hlt : dtKey ce < dtKey ns <;>
      simp [hcond.1, hcond.2.1, hlt, reset_format ns]
  · rw [if_neg hcond]
    rcases Decidable.not_and_iff_or_not.mp hcond with hbf | h2
    · have hb : b = false := by
        cases b
        · rfl
        · exact absurd rfl hbf
      simp [hb]
    · rcases Decidable.not_and_iff_or_not.mp h2 with htf | hif
      · have ht : uiJsTruthy ed = false := by
          cases hx : uiJsTruthy ed
          · rfl
          · exact absurd hx htf
        simp [ht]
      · have hiv : iv = "" := Decidable.not_not.mp hif
        rw [hiv] at hp
        rw [show parseDateTimeLocal "" = none from rfl] at hp
        exact Option.noConfusion hp

end Shelf
